import Mathlib

/-!
Verification development for the StudyOwl retrieval-and-enrichment engine.

The definitions below are a shallow embedding of the JavaScript source:
`chunkText.js` (sliding-window chunker) and the backend `server.js`
(figure extraction fallback, graph classification and enrichment,
query-time ranking and context assembly, ingestion progress updates).
Strings are modelled as `List Char`; JS regular-expression tests are
modelled by explicit character scans with the same semantics on the
ASCII data the system handles; JS floating-point scores are modelled
over `ℝ` with `Real.log` for `Math.log`.
-/

namespace StudyOwl

/-! ## Character and string utilities (JS string/regex semantics) -/

/-- Lower-casing of a character list, modelling JS `toLowerCase` on ASCII data. -/
def lowerL (l : List Char) : List Char := l.map Char.toLower

/-- JS regex `\s` class membership for the whitespace characters the system meets
(space, tab, newline, carriage return, vertical tab, form feed). -/
def isSpaceChar (c : Char) : Bool :=
  c = ' ' || c = '\t' || c = '\n' || c = '\r' || c.toNat = 11 || c.toNat = 12

/-- JS regex `\w` class: `[A-Za-z0-9_]`. -/
def isWordChar (c : Char) : Bool := c.isAlphanum || c = '_'

/-- Does `pre` occur at the head of `l`? -/
def hasPrefixL (pre l : List Char) : Bool := List.isPrefixOf pre l

/-- Substring test: models JS `String.prototype.includes` / an unanchored regex
literal match. -/
def containsSub (needle : List Char) : List Char → Bool
  | [] => needle.isEmpty
  | c :: t => hasPrefixL needle (c :: t) || containsSub needle t

/-- Number of maximal whitespace runs in `l`, tracked with an `inRun` flag. -/
def spaceRunsAux : List Char → Bool → Nat
  | [], _ => 0
  | c :: cs, inRun =>
    if isSpaceChar c then (if inRun then 0 else 1) + spaceRunsAux cs true
    else spaceRunsAux cs false

/-- Models JS `text.split(/\s+/).length`: the split keeps empty pieces at both
ends, so the count is (number of maximal whitespace runs) + 1; in particular it
is always at least 1, matching the source's `|| 1` guard. -/
def wordCount (l : List Char) : Nat := spaceRunsAux l false + 1

/-- After a candidate word match, the following character must not be a word
character (regex `\b` on the right). -/
def boundaryAfter : List Char → Bool
  | [] => true
  | c :: _ => !isWordChar c

/-- Scan for whole-word occurrences of `kw` (regex `\b kw \b` with the `g` flag):
left-to-right, non-overlapping, resuming after each match.  `prevW` records
whether the previous character was a word character (left `\b`).  The source only
ever passes non-empty alphabetic keywords; `max 1 kw.length` agrees with
`kw.length` for those.  The `fuel` argument only bounds the number of scan steps
(each step consumes at least one character, so `hay.length` fuel is enough); it
makes the recursion structural so that the scan evaluates inside the kernel. -/
def countWordFuel (kw : List Char) : Nat → List Char → Bool → Nat
  | 0, _, _ => 0
  | fuel + 1, hay, prevW =>
    match hay with
    | [] => 0
    | c :: t =>
      if hasPrefixL kw (c :: t) && !prevW && boundaryAfter ((c :: t).drop (max 1 kw.length))
      then 1 + countWordFuel kw fuel ((c :: t).drop (max 1 kw.length)) (isWordChar (kw.getLastD c))
      else countWordFuel kw fuel t (isWordChar c)

/-- Models JS `(text.match(new RegExp('\\b' + kw + '\\b', 'g')) || []).length`. -/
def countWordMatches (kw text : List Char) : Nat := countWordFuel kw text.length text false

/-- Maximal alphabetic runs of `l` (the `acc` argument holds the current run in
reverse). Models the global regex `/[a-zA-Z]+/g` scan underlying keyword
extraction. -/
def alphaRunsAux : List Char → List Char → List (List Char)
  | [], acc => if acc.isEmpty then [] else [acc.reverse]
  | c :: t, acc =>
    if c.isAlpha then alphaRunsAux t (c :: acc)
    else (if acc.isEmpty then [] else [acc.reverse]) ++ alphaRunsAux t []

/-- Models JS `message.toLowerCase().match(/[a-zA-Z]{4,}/g) || []`: maximal
alphabetic runs of length at least 4 in the lower-cased message, kept in order
and NOT de-duplicated. -/
def keywordsOf (message : String) : List (List Char) :=
  (alphaRunsAux (lowerL message.data) []).filter (fun r => 4 ≤ r.length)

/-- The alternatives of the graph-intent regex
`/figure|graph|chart|diagram|plot|curve|illustration|image|visual/i`. -/
def graphWords : List (List Char) :=
  ["figure".data, "graph".data, "chart".data, "diagram".data, "plot".data,
   "curve".data, "illustration".data, "image".data, "visual".data]

/-- Models the case-insensitive graph-intent test on the question text. -/
def isGraphQuery (message : String) : Bool :=
  graphWords.any (fun w => containsSub w (lowerL message.data))

/-- After at least one digit was seen: consume further digits, then require a
closing `]` (the tail of regex `\d+\]`). -/
def digitsThenRB : List Char → Bool
  | [] => false
  | c :: t => if c.isDigit then digitsThenRB t else decide (c = ']')

/-- Matches `\d+\]` at the head of the list. -/
def figTailCheck : List Char → Bool
  | [] => false
  | c :: t => c.isDigit && digitsThenRB t

/-- Scan of the (lower-cased) content for the marker regex
`/\[graph (structure|interpretation)\]|\[figure \d+\]/i`. -/
def markerScan : List Char → Bool
  | [] => false
  | c :: t =>
    hasPrefixL "[graph structure]".data (c :: t) ||
    hasPrefixL "[graph interpretation]".data (c :: t) ||
    (hasPrefixL "[figure ".data (c :: t) && figTailCheck ((c :: t).drop 8)) ||
    markerScan t

/-- Does a fragment's content carry a `[GRAPH STRUCTURE]`/`[GRAPH
INTERPRETATION]`/`[FIGURE n]` marker (case-insensitively)? -/
def hasGraphMarker (content : String) : Bool := markerScan (lowerL content.data)

/-! ## Chunker (`chunkText.js`, `chunkTextGenerator`) -/

/-- A fragment emitted by the chunker: a fresh id from the uuid source and the
sliced content. -/
structure RawChunk where
  id : String
  content : List Char
deriving DecidableEq

/-- The chunker's step: `Math.max(1, size - Math.min(overlap, size - 1))`. -/
def chunkStep (size overlap : Nat) : Nat := max 1 (size - min overlap (size - 1))

/-- The chunker loop.  `ids` models the external uuid source (`uuidv4()` draws
`ids 0, ids 1, ...` in emission order), `idx` the number of fragments emitted so
far, `start` the current offset.  Mirrors: emit `text.slice(start, start+size)`
while `start < len`, advance by the step, and break early when the remaining
tail is shorter than 10% of `size` (`len - start < size * 0.1`, exact for the
integer quantities involved).  The `fuel` argument only bounds the number of
loop iterations: the step is at least 1, so `text.length - start + 1` fuel is
enough; it makes the recursion structural so that the loop evaluates inside the
kernel. -/
def chunkGenFuel (text : List Char) (size overlap : Nat) (ids : Nat → String) :
    Nat → Nat → Nat → List RawChunk
  | 0, _, _ => []
  | fuel + 1, idx, start =>
    if start < text.length then
      (if ((text.drop start).take size).isEmpty then []
       else [⟨ids idx, (text.drop start).take size⟩]) ++
      (if 10 * (text.length - (start + chunkStep size overlap)) < size then []
       else chunkGenFuel text size overlap ids fuel
         (if ((text.drop start).take size).isEmpty then idx else idx + 1)
         (start + chunkStep size overlap))
    else []

/-- `chunkTextGenerator(text, size, overlap)` as a function of the text, the
parameters and the uuid source. -/
def chunkTextGenerator (text : String) (size overlap : Nat) (ids : Nat → String) :
    List RawChunk :=
  if text.data.isEmpty then [] else chunkGenFuel text.data size overlap ids (text.data.length + 1) 0 0

/-! ## Chunker lemmas (claims C3 and C4) -/

theorem chunkStep_pos (size overlap : Nat) : 1 ≤ chunkStep size overlap := by
  unfold chunkStep; omega

theorem chunkGenFuel_spec (text : List Char) (size overlap : Nat) (ids : Nat → String)
    (hsize : 0 < size) :
    ∀ fuel start idx, text.length - start < fuel →
      ∃ k, chunkGenFuel text size overlap ids fuel idx start =
          (List.range k).map (fun i =>
            RawChunk.mk (ids (idx + i))
              ((text.drop (start + i * chunkStep size overlap)).take size)) ∧
        ∀ i < k, start + i * chunkStep size overlap < text.length := by
  intro fuel
  induction fuel with
  | zero => intro start idx h; omega
  | succ fuel ih =>
    intro start idx hfuel
    by_cases h : start < text.length
    · have hstep : 1 ≤ chunkStep size overlap := chunkStep_pos size overlap
      have hcont : ((text.drop start).take size).isEmpty = false := by
        cases hdrop : text.drop start with
        | nil => rw [List.drop_eq_nil_iff] at hdrop; omega
        | cons a l =>
          cases size with
          | zero => omega
          | succ n => simp
      simp only [chunkGenFuel, if_pos h, hcont, Bool.false_eq_true, if_false]
      by_cases hbrk : 10 * (text.length - (start + chunkStep size overlap)) < size
      · refine ⟨1, ?_, ?_⟩
        · simp [hbrk, List.range_succ]
        · intro i hi
          have hi0 : i = 0 := by omega
          subst hi0; simpa using h
      · obtain ⟨k, hk, hb⟩ := ih (start + chunkStep size overlap) (idx + 1) (by omega)
        refine ⟨k + 1, ?_, ?_⟩
        · rw [if_neg hbrk, hk, List.range_succ_eq_map, List.map_cons, List.map_map,
            List.singleton_append]
          congr 1
          · simp
          · apply List.map_congr_left
            intro i hi
            have e1 : idx + 1 + i = idx + (i + 1) := by omega
            have e2 : start + chunkStep size overlap + i * chunkStep size overlap =
                start + (i + 1) * chunkStep size overlap := by ring
            simp only [Function.comp_apply, Nat.succ_eq_add_one, e1, e2]
        · intro i hi
          match i with
          | 0 => simpa using h
          | j + 1 =>
            have e : start + (j + 1) * chunkStep size overlap =
                (start + chunkStep size overlap) + j * chunkStep size overlap := by ring
            rw [e]
            exact hb j (by omega)
    · refine ⟨0, ?_, ?_⟩
      · simp [chunkGenFuel, h]
      · intro i hi; omega

/-- C3: for every text, every size > 0 and every overlap ≥ 0 (including
overlap ≥ size), the chunker terminates (it is a total function in this
embedding, with fuel adequate by the positive step) and its emitted fragments
are exactly the slices starting at the strictly increasing offsets
0, step, 2·step, ..., where step = max(1, size − min(overlap, size−1)); for
overlap ≥ size the step clamps to 1. -/
theorem chunker_offsets_increasing (text : String) (size overlap : Nat)
    (ids : Nat → String) (hsize : 0 < size) :
    (∃ k, chunkTextGenerator text size overlap ids =
        (List.range k).map (fun i =>
          RawChunk.mk (ids i) ((text.data.drop (i * chunkStep size overlap)).take size)) ∧
        (∀ i < k, i * chunkStep size overlap < text.data.length) ∧
        ((List.range k).map (fun i => i * chunkStep size overlap)).Pairwise (· < ·)) ∧
    (size ≤ overlap → chunkStep size overlap = 1) := by
  constructor
  · by_cases hemp : text.data.isEmpty
    · refine ⟨0, ?_, ?_, ?_⟩
      · simp [chunkTextGenerator, hemp]
      · intro i hi; omega
      · simp
    · obtain ⟨k, hk, hb⟩ :=
        chunkGenFuel_spec text.data size overlap ids hsize (text.data.length + 1) 0 0 (by omega)
      refine ⟨k, ?_, ?_, ?_⟩
      · rw [chunkTextGenerator, if_neg (by simpa using hemp), hk]
        apply List.map_congr_left
        intro i hi
        simp
      · intro i hi
        simpa using hb i hi
      · have hstep := chunkStep_pos size overlap
        exact List.Pairwise.map _
          (fun a b hab => mul_lt_mul_of_pos_right hab (by omega))
          (List.pairwise_lt_range k)
  · intro hov; unfold chunkStep; omega

/-- Witness for C3 at text "abcdef", size 5, overlap 7, a constant uuid
source. -/
theorem chunker_offsets_increasing_witness :
    (∃ k, chunkTextGenerator "abcdef" 5 7 (fun _ => "u") =
        (List.range k).map (fun i =>
          RawChunk.mk ((fun _ : Nat => "u") i) (("abcdef".data.drop (i * chunkStep 5 7)).take 5)) ∧
        (∀ i < k, i * chunkStep 5 7 < "abcdef".data.length) ∧
        ((List.range k).map (fun i => i * chunkStep 5 7)).Pairwise (· < ·)) ∧
    (5 ≤ 7 → chunkStep 5 7 = 1) :=
  chunker_offsets_increasing "abcdef" 5 7 (fun _ => "u") (by norm_num)

theorem chunkGenFuel_content_ext (text : List Char) (size overlap : Nat)
    (ids ids' : Nat → String) :
    ∀ fuel start idx idx',
      (chunkGenFuel text size overlap ids fuel idx start).map RawChunk.content =
      (chunkGenFuel text size overlap ids' fuel idx' start).map RawChunk.content := by
  intro fuel
  induction fuel with
  | zero => intro start idx idx'; rfl
  | succ fuel ih =>
    intro start idx idx'
    simp only [chunkGenFuel]
    by_cases h : start < text.length
    · simp only [if_pos h, List.map_append]
      congr 1
      · cases hc : ((text.drop start).take size).isEmpty <;> simp [hc]
      · by_cases hbrk : 10 * (text.length - (start + chunkStep size overlap)) < size
        · simp [hbrk]
        · simp only [if_neg hbrk]
          exact ih _ _ _
    · simp [h]

/-- C4 (amended): the sequence of emitted fragment CONTENTS is a pure function
of (text, size, overlap) — it does not depend on the uuid source — so two
invocations with identical arguments produce identical content sequences. -/
theorem chunker_contents_restartable (text : String) (size overlap : Nat)
    (ids ids' : Nat → String) :
    (chunkTextGenerator text size overlap ids).map RawChunk.content =
    (chunkTextGenerator text size overlap ids').map RawChunk.content := by
  unfold chunkTextGenerator
  by_cases hemp : text.data.isEmpty
  · simp [hemp]
  · simp only [hemp, Bool.false_eq_true, if_false]
    exact chunkGenFuel_content_ext text.data size overlap ids ids' _ 0 0 0

/-- C4 counterexample: the chunker emits full fragment records whose ids are
drawn from the external uuid source, so two invocations with identical
(text, size, overlap) arguments but distinct uuid draws produce different
fragment sequences — the full records are not a pure function of the
arguments. -/
theorem chunker_fragments_not_pure :
    chunkTextGenerator "abcdefgh" 4 0 (fun _ => "uuid-a") ≠
    chunkTextGenerator "abcdefgh" 4 0 (fun _ => "uuid-b") := by decide

/-! ## Query-time fragment model and context assembler (`buildContextSmart`) -/

/-- A stored fragment as seen by the query-time pipeline. -/
structure Chunk where
  id : String
  pageNumber : Nat
  content : String
deriving DecidableEq

/-- One formatted context block: `"[Page " + pageNumber + "] " + content`. -/
def formatBlock (c : Chunk) : String :=
  "[Page " ++ toString c.pageNumber ++ "] " ++ c.content

/-- The assembler loop of `buildContextSmart`: consume ranked fragments in
order; a fragment with empty content is skipped and consumption continues (the
`continue`); when the next block plus the 2-character separator exceeds the
remaining budget, consumption stops entirely (the `break`), never substituting
a later fragment. -/
def assembleGo (remaining : Nat) : List Chunk → List String
  | [] => []
  | c :: cs =>
    if c.content = "" then assembleGo remaining cs
    else if remaining < (formatBlock c).length + 2 then []
    else formatBlock c :: assembleGo (remaining - ((formatBlock c).length + 2)) cs

/-- JS `parts.join("\n\n")`. -/
def joinBlocks : List String → String
  | [] => ""
  | [b] => b
  | b :: b' :: bs => b ++ "\n\n" ++ joinBlocks (b' :: bs)

/-- The context assembler output for a ranked fragment list and a budget. -/
def assembleContext (topChunks : List Chunk) (maxChars : Nat) : String :=
  joinBlocks (assembleGo maxChars topChunks)

/-- The formatted blocks of all fragments with non-empty content, in ranked
order: the candidates the assembler loop walks through. -/
def allBlocks (chunks : List Chunk) : List String :=
  (chunks.filter (fun c => c.content != "")).map formatBlock

/-- Budget cost of a list of blocks: each block plus its 2-character
separator. -/
def neededSum (blocks : List String) : Nat := (blocks.map (fun b => b.length + 2)).sum

theorem assembleGo_length (chunks : List Chunk) :
    ∀ r, (joinBlocks (assembleGo r chunks)).length ≤ r := by
  induction chunks with
  | nil => intro r; simp [assembleGo, joinBlocks]
  | cons c cs ih =>
    intro r
    by_cases hc : c.content = ""
    · rw [assembleGo, if_pos hc]; exact ih r
    · rw [assembleGo, if_neg hc]
      by_cases hover : r < (formatBlock c).length + 2
      · rw [if_pos hover]; simp [joinBlocks]
      · rw [if_neg hover]
        cases hrest : assembleGo (r - ((formatBlock c).length + 2)) cs with
        | nil => simp only [joinBlocks]; omega
        | cons p ps =>
          have hlen := ih (r - ((formatBlock c).length + 2))
          rw [hrest] at hlen
          simp only [joinBlocks, String.length_append]
          have h2 : ("\n\n" : String).length = 2 := rfl
          omega

theorem assembleGo_spec (chunks : List Chunk) :
    ∀ r, ∃ k, assembleGo r chunks = (allBlocks chunks).take k ∧
      neededSum ((allBlocks chunks).take k) ≤ r ∧
      (k < (allBlocks chunks).length →
        r < neededSum ((allBlocks chunks).take k) +
          ((allBlocks chunks).getD k "").length + 2) := by
  induction chunks with
  | nil =>
    intro r
    refine ⟨0, by simp [assembleGo], by simp [neededSum], ?_⟩
    intro h
    simp [allBlocks] at h
  | cons c cs ih =>
    intro r
    by_cases hc : c.content = ""
    · have hblocks : allBlocks (c :: cs) = allBlocks cs := by
        simp [allBlocks, List.filter_cons, hc]
      obtain ⟨k, hk, hsum, hstop⟩ := ih r
      exact ⟨k, by rw [assembleGo, if_pos hc, hblocks, hk], by rw [hblocks]; exact hsum,
        by rw [hblocks]; exact hstop⟩
    · have hblocks : allBlocks (c :: cs) = formatBlock c :: allBlocks cs := by
        simp [allBlocks, List.filter_cons, hc]
      by_cases hover : r < (formatBlock c).length + 2
      · refine ⟨0, by rw [assembleGo, if_neg hc, if_pos hover]; simp, by simp [neededSum], ?_⟩
        intro _
        rw [hblocks]
        simp [neededSum, List.getD_cons_zero]
        omega
      · obtain ⟨k, hk, hsum, hstop⟩ := ih (r - ((formatBlock c).length + 2))
        refine ⟨k + 1, ?_, ?_, ?_⟩
        · rw [assembleGo, if_neg hc, if_neg hover, hblocks, List.take_succ_cons, hk]
        · rw [hblocks, List.take_succ_cons]
          simp only [neededSum, List.map_cons, List.sum_cons] at *
          omega
        · intro hklt
          rw [hblocks] at hklt ⊢
          simp only [List.length_cons] at hklt
          have := hstop (by omega)
          rw [List.take_succ_cons, List.getD_cons_succ]
          simp only [neededSum, List.map_cons, List.sum_cons] at *
          omega

/-- C2: for every ranked fragment sequence and every character budget, the
assembled context string has length at most `maxChars`, and the retained
blocks are an initial prefix of the formatted non-empty blocks in ranked order
(so after the loop stops no later, smaller fragment is ever substituted in),
the prefix fits the budget, and whenever the loop stopped before exhausting
the candidates it did so because the next block plus its 2-character separator
exceeded the remaining budget. -/
theorem assembler_budget_skip_and_stop (chunks : List Chunk) (maxChars : Nat) :
    (assembleContext chunks maxChars).length ≤ maxChars ∧
    ∃ k, assembleGo maxChars chunks = (allBlocks chunks).take k ∧
      neededSum ((allBlocks chunks).take k) ≤ maxChars ∧
      (k < (allBlocks chunks).length →
        maxChars < neededSum ((allBlocks chunks).take k) +
          ((allBlocks chunks).getD k "").length + 2) :=
  ⟨assembleGo_length chunks maxChars, assembleGo_spec chunks maxChars⟩

/-- Witness for C2 at a concrete ranked list and budget. -/
theorem assembler_budget_skip_and_stop_witness :
    (assembleContext [Chunk.mk "a" 3 "hello", Chunk.mk "b" 4 "world!"] 20).length ≤ 20 ∧
    ∃ k, assembleGo 20 [Chunk.mk "a" 3 "hello", Chunk.mk "b" 4 "world!"] =
        (allBlocks [Chunk.mk "a" 3 "hello", Chunk.mk "b" 4 "world!"]).take k ∧
      neededSum ((allBlocks [Chunk.mk "a" 3 "hello", Chunk.mk "b" 4 "world!"]).take k) ≤ 20 ∧
      (k < (allBlocks [Chunk.mk "a" 3 "hello", Chunk.mk "b" 4 "world!"]).length →
        20 < neededSum ((allBlocks [Chunk.mk "a" 3 "hello", Chunk.mk "b" 4 "world!"]).take k) +
          ((allBlocks [Chunk.mk "a" 3 "hello", Chunk.mk "b" 4 "world!"]).getD k "").length + 2) :=
  assembler_budget_skip_and_stop [Chunk.mk "a" 3 "hello", Chunk.mk "b" 4 "world!"] 20

/-! ## Relevance scoring: tf-idf with graph-marker boost (claim C1) -/

/-- Document frequency of `kw` over the candidate pool: the number of
candidates containing the keyword as a case-insensitive whole word
(`new RegExp('\\b' + kw + '\\b', 'i').test(c.content)`). -/
def dfCount (pool : List Chunk) (kw : List Char) : Nat :=
  (pool.filter (fun c => decide (0 < countWordMatches kw (lowerL c.content.data)))).length

/-- One keyword's tf·idf contribution to a fragment's score:
`tf = matches / wordCount` over the lower-cased content and
`idf = Math.log((N + 1) / (df + 1))` over the candidate pool. -/
noncomputable def tfidfTerm (pool : List Chunk) (kw : List Char) (c : Chunk) : ℝ :=
  ((countWordMatches kw (lowerL c.content.data) : ℝ) /
      (wordCount (lowerL c.content.data) : ℝ)) *
    Real.log (((pool.length : ℝ) + 1) / ((dfCount pool kw : ℝ) + 1))

/-- A fragment's tf-idf total over the question's keyword list (which is NOT
de-duplicated: a keyword repeated in the question contributes once per
repetition). -/
noncomputable def tfidfScore (pool : List Chunk) (message : String) (c : Chunk) : ℝ :=
  ((keywordsOf message).map (fun kw => tfidfTerm pool kw c)).sum

/-- The full per-fragment score computed by `buildContextSmart`: a fixed 10.0
boost for marker-bearing fragments when the question has graph intent, plus
the tf-idf total. -/
noncomputable def chunkScore (pool : List Chunk) (message : String) (c : Chunk) : ℝ :=
  (if isGraphQuery message && hasGraphMarker c.content then (10 : ℝ) else 0) +
    tfidfScore pool message c

theorem tfidfTerm_eq_zero_of_no_match (pool : List Chunk) (kw : List Char) (c : Chunk)
    (h : countWordMatches kw (lowerL c.content.data) = 0) : tfidfTerm pool kw c = 0 := by
  unfold tfidfTerm
  rw [h]
  norm_num

/-- C1 (amended): under graph intent the boost adds exactly 10.0 to
marker-bearing fragments and nothing to others, so a marker-bearing fragment
outranks every non-marker fragment whose tf-idf total is less than the marker
fragment's tf-idf total plus 10 — in particular tf-idf 0.5 with a marker beats
tf-idf 9.9 without one.  (The dominance is NOT unconditional: tf-idf totals
can exceed 10, see the counterexample.) -/
theorem marker_boost_dominance (pool : List Chunk) (message : String) (cM cN : Chunk)
    (hq : isGraphQuery message = true)
    (hM : hasGraphMarker cM.content = true)
    (hN : hasGraphMarker cN.content = false)
    (hlt : tfidfScore pool message cN < tfidfScore pool message cM + 10) :
    chunkScore pool message cN < chunkScore pool message cM := by
  unfold chunkScore
  rw [hq, hM, hN]
  simp
  linarith

/-- A marker-bearing fragment with no keyword occurrences. -/
def boostCexMarker : Chunk := Chunk.mk "m" 1 "[figure 1] hello"

/-- A plain fragment holding 31 whole-word occurrences of "alpha" inside a
single whitespace-free token, so its term frequency is 31. -/
def boostCexPlain : Chunk :=
  Chunk.mk "n" 2 "alpha-alpha-alpha-alpha-alpha-alpha-alpha-alpha-alpha-alpha-alpha-alpha-alpha-alpha-alpha-alpha-alpha-alpha-alpha-alpha-alpha-alpha-alpha-alpha-alpha-alpha-alpha-alpha-alpha-alpha-alpha"

/-- The two-fragment candidate pool of the C1 counterexample. -/
def boostCexPool : List Chunk := [boostCexMarker, boostCexPlain]

theorem boostCex_marker_score :
    chunkScore boostCexPool "graph alpha" boostCexMarker = 10 := by
  unfold chunkScore tfidfScore
  have hkw : keywordsOf "graph alpha" = ["graph".data, "alpha".data] := by decide
  rw [hkw, List.map_cons, List.map_cons, List.map_nil, List.sum_cons, List.sum_cons,
    List.sum_nil,
    tfidfTerm_eq_zero_of_no_match _ _ _ (by decide),
    tfidfTerm_eq_zero_of_no_match _ _ _ (by decide),
    if_pos (by decide :
      (isGraphQuery "graph alpha" && hasGraphMarker boostCexMarker.content) = true)]
  norm_num

set_option maxRecDepth 40000

theorem boostCex_plain_score :
    chunkScore boostCexPool "graph alpha" boostCexPlain =
      31 * Real.log ((3 : ℝ) / 2) := by
  unfold chunkScore tfidfScore
  have hkw : keywordsOf "graph alpha" = ["graph".data, "alpha".data] := by decide
  rw [hkw, List.map_cons, List.map_cons, List.map_nil, List.sum_cons, List.sum_cons,
    List.sum_nil,
    tfidfTerm_eq_zero_of_no_match _ _ _ (by decide),
    if_neg (by decide :
      ¬ (isGraphQuery "graph alpha" && hasGraphMarker boostCexPlain.content) = true)]
  unfold tfidfTerm
  rw [(by decide : countWordMatches "alpha".data (lowerL boostCexPlain.content.data) = 31),
    (by decide : wordCount (lowerL boostCexPlain.content.data) = 1),
    (by decide : dfCount boostCexPool "alpha".data = 1),
    (by decide : (boostCexPool.length : Nat) = 2)]
  norm_num

theorem log_three_halves_ge : (1 : ℝ) / 3 ≤ Real.log ((3 : ℝ) / 2) := by
  have hpos : (0 : ℝ) < 2 / 3 := by norm_num
  have h := Real.log_le_sub_one_of_pos hpos
  have hinv : ((2 : ℝ) / 3)⁻¹ = (3 : ℝ) / 2 := by norm_num
  have h2 := Real.log_inv ((2 : ℝ) / 3)
  rw [hinv] at h2
  linarith

/-- C1 counterexample: under graph intent, a non-marker fragment whose tf-idf
total exceeds 10 (term frequency 31 on a rare term) strictly outranks a
marker-bearing fragment, so the 10.0 boost does not guarantee that every
marker-bearing fragment outranks every non-marker fragment regardless of
keyword overlap. -/
theorem marker_boost_not_unconditional :
    isGraphQuery "graph alpha" = true ∧
    hasGraphMarker boostCexMarker.content = true ∧
    hasGraphMarker boostCexPlain.content = false ∧
    chunkScore boostCexPool "graph alpha" boostCexMarker <
      chunkScore boostCexPool "graph alpha" boostCexPlain := by
  refine ⟨by decide, by decide, by decide, ?_⟩
  rw [boostCex_marker_score, boostCex_plain_score]
  have := log_three_halves_ge
  linarith

/-- Witness for C1 (amended) at a two-fragment pool where both tf-idf totals
are zero. -/
theorem marker_boost_dominance_witness :
    chunkScore [Chunk.mk "m" 1 "[figure 1] hi", Chunk.mk "n" 1 "hello"] "graph"
        (Chunk.mk "n" 1 "hello") <
      chunkScore [Chunk.mk "m" 1 "[figure 1] hi", Chunk.mk "n" 1 "hello"] "graph"
        (Chunk.mk "m" 1 "[figure 1] hi") := by
  apply marker_boost_dominance
  · decide
  · decide
  · decide
  · have hkw : keywordsOf "graph" = ["graph".data] := by decide
    unfold tfidfScore
    rw [hkw, List.map_cons, List.map_nil, List.sum_cons, List.sum_nil,
      List.map_cons, List.map_nil, List.sum_cons, List.sum_nil,
      tfidfTerm_eq_zero_of_no_match _ _ _ (by decide),
      tfidfTerm_eq_zero_of_no_match _ _ _ (by decide)]
    norm_num

/-! ## Selection and context construction (claims C5 and C7) -/

/-- Stable insertion for descending sort by a score function, modelling the
stable JS `sort((a, b) => b.score - a.score)`: an element is placed before the
first already-sorted element whose score is not larger, so equal-score
elements keep their original relative order. -/
noncomputable def insertDesc {α : Type} (score : α → ℝ) (a : α) : List α → List α
  | [] => [a]
  | b :: l => if score b ≤ score a then a :: b :: l else b :: insertDesc score a l

/-- Stable descending sort by score (insertion sort). -/
noncomputable def sortDesc {α : Type} (score : α → ℝ) : List α → List α
  | [] => []
  | a :: l => insertDesc score a (sortDesc score l)

/-- The fragment-selection logic of `buildContextSmart` (assuming a non-empty
keyword list).  The `pageHint` parameter is kept for signature fidelity: the
source reorders its `graphChunks` array to put hinted-page fragments first,
but then uses that array only for membership tests (`includes`) and logging,
and sorts the scored candidates — whose order is the original pool order — so
the reordering never influences the selected output. -/
noncomputable def selectTopChunks (chunks : List Chunk) (message : String)
    (pageHint : Option Nat) : List Chunk :=
  if isGraphQuery message && !(chunks.filter (fun c => hasGraphMarker c.content)).isEmpty then
    ((sortDesc (fun x => x.2)
        ((chunks.map (fun c => (c, chunkScore chunks message c))).filter
          (fun x => (chunks.filter (fun c => hasGraphMarker c.content)).contains x.1))).take
        5).map (fun x => x.1) ++
    ((sortDesc (fun x => x.2)
        ((chunks.map (fun c => (c, chunkScore chunks message c))).filter
          (fun x => !((chunks.filter (fun c => hasGraphMarker c.content)).contains x.1)))).take
        3).map (fun x => x.1)
  else
    (((sortDesc (fun x => x.2)
        (chunks.map (fun c => (c, chunkScore chunks message c)))).take 3).filter
      (fun x => decide ((0 : ℝ) < x.2))).map (fun x => x.1)

/-- Earliest longest fragment of a list: the head of the stable
descending-by-length sort used inside `getPagesRepresentation`. -/
def pickLongest : List Chunk → Option Chunk
  | [] => none
  | c :: cs =>
    match pickLongest cs with
    | none => some c
    | some d => some (if d.content.length ≤ c.content.length then c else d)

/-- Ascending insertion for natural numbers. -/
def insertAscNat (n : Nat) : List Nat → List Nat
  | [] => [n]
  | m :: l => if n ≤ m then n :: m :: l else m :: insertAscNat n l

/-- Ascending sort of page numbers (`keys.sort((a, b) => a - b)`). -/
def sortAscNat : List Nat → List Nat
  | [] => []
  | n :: l => insertAscNat n (sortAscNat l)

/-- The per-page fallback `getPagesRepresentation`: one representative
fragment per page, pages in ascending order.  In the source the
representative's score is looked up as `scoredChunks.find(x => x.c === c)?.s`,
but the scored entries are built with fields `{chunk, score}`, so the lookup
never matches, every looked-up score is 0, and the stable comparator
`b.s - a.s || length difference` degenerates to descending content length:
the representative of a page is its earliest longest fragment. -/
def getPagesRepresentation (chunks : List Chunk) : List Chunk :=
  (sortAscNat ((chunks.map (fun c => c.pageNumber)).dedup)).filterMap
    (fun p => pickLongest (chunks.filter (fun c => c.pageNumber == p)))

/-- The value returned by `buildContextSmart`: the function returns a STRING
on the assembled-context path, but returns the raw fragment ARRAY on the two
fallback paths (`return getPagesRepresentation(...)`), so its result type is a
sum. -/
inductive CtxResult where
  | str (s : String)
  | chunks (l : List Chunk)
deriving DecidableEq

/-- `buildContextSmart(chunks, message, maxChars, pageHint)`: empty keyword
list → per-page fallback (raw array); otherwise select fragments, and if any
were selected assemble them into a budgeted string, else fall back to the
per-page representation (raw array). -/
noncomputable def buildContextSmart (chunks : List Chunk) (message : String)
    (maxChars : Nat) (pageHint : Option Nat) : CtxResult :=
  if (keywordsOf message).isEmpty then CtxResult.chunks (getPagesRepresentation chunks)
  else if (selectTopChunks chunks message pageHint).isEmpty then
    CtxResult.chunks (getPagesRepresentation chunks)
  else CtxResult.str (assembleContext (selectTopChunks chunks message pageHint) maxChars)

theorem tfidfScore_eq_zero (pool : List Chunk) (message : String) (c : Chunk)
    (hall : ∀ kw ∈ keywordsOf message, countWordMatches kw (lowerL c.content.data) = 0) :
    tfidfScore pool message c = 0 := by
  unfold tfidfScore
  apply List.sum_eq_zero
  intro x hx
  obtain ⟨kw, hkw, rfl⟩ := List.mem_map.mp hx
  exact tfidfTerm_eq_zero_of_no_match _ _ _ (hall kw hkw)

theorem chunkScore_of_no_matches (pool : List Chunk) (message : String) (c : Chunk)
    (hall : ∀ kw ∈ keywordsOf message, countWordMatches kw (lowerL c.content.data) = 0) :
    chunkScore pool message c =
      if isGraphQuery message && hasGraphMarker c.content then (10 : ℝ) else 0 := by
  unfold chunkScore
  rw [tfidfScore_eq_zero pool message c hall]
  ring

/-- First marker-bearing fragment (page 1) of the C5 input. -/
def hintCexA : Chunk := Chunk.mk "g1" 1 "[figure 1] one"

/-- Second marker-bearing fragment (page 2, the hinted page) of the C5
input. -/
def hintCexB : Chunk := Chunk.mk "g2" 2 "[figure 1] two"

theorem hintCexA_score :
    chunkScore [hintCexA, hintCexB] "graph" hintCexA = 10 := by
  rw [chunkScore_of_no_matches _ _ _ (by decide)]
  exact if_pos (by decide)

theorem hintCexB_score :
    chunkScore [hintCexA, hintCexB] "graph" hintCexB = 10 := by
  rw [chunkScore_of_no_matches _ _ _ (by decide)]
  exact if_pos (by decide)

/-- C5: at a graph-intent query with page hint 2 over two equal-scored
marker-bearing fragments on pages 1 and 2, the selected sequence keeps the
original pool order `[page 1, page 2]` — the hinted page is NOT prioritized
among ties, because the source's hinted-first reordering of `graphChunks` is
used only for membership tests and logging while the sort runs over the
pool-ordered scored list. -/
theorem hinted_page_priority_ignored :
    chunkScore [hintCexA, hintCexB] "graph" hintCexA =
      chunkScore [hintCexA, hintCexB] "graph" hintCexB ∧
    hintCexA.pageNumber = 1 ∧ hintCexB.pageNumber = 2 ∧
    selectTopChunks [hintCexA, hintCexB] "graph" (some 2) = [hintCexA, hintCexB] := by
  refine ⟨by rw [hintCexA_score, hintCexB_score], by decide, by decide, ?_⟩
  unfold selectTopChunks
  rw [if_pos (by decide :
    (isGraphQuery "graph" &&
      !(([hintCexA, hintCexB].filter (fun c => hasGraphMarker c.content)).isEmpty)) = true)]
  rw [List.map_cons, List.map_cons, List.map_nil]
  rw [hintCexA_score, hintCexB_score]
  rw [show ([hintCexA, hintCexB].filter (fun c => hasGraphMarker c.content)) =
      [hintCexA, hintCexB] from by decide]
  simp only [List.filter_cons, List.filter_nil]
  rw [show ([hintCexA, hintCexB].contains (hintCexA, (10 : ℝ)).1) = true from by decide]
  rw [show ([hintCexA, hintCexB].contains (hintCexB, (10 : ℝ)).1) = true from by decide]
  simp only [Bool.not_true, if_true, if_false, Bool.false_eq_true]
  have hsort : sortDesc (fun x : Chunk × ℝ => x.2) [(hintCexA, (10 : ℝ)), (hintCexB, 10)] =
      [(hintCexA, 10), (hintCexB, 10)] := by
    simp only [sortDesc, insertDesc]
    rw [if_pos (le_refl (10 : ℝ))]
  rw [hsort]
  simp [sortDesc, List.take]

theorem insertDesc_cons_of_le {α : Type} (score : α → ℝ) (a b : α) (l : List α)
    (h : score b ≤ score a) : insertDesc score a (b :: l) = a :: b :: l := by
  rw [insertDesc, if_pos h]

theorem sortDesc_of_const {α : Type} (score : α → ℝ) (s : ℝ) :
    ∀ l : List α, (∀ x ∈ l, score x = s) → sortDesc score l = l := by
  intro l
  induction l with
  | nil => intro _; rfl
  | cons a t ih =>
    intro h
    rw [sortDesc, ih (fun x hx => h x (List.mem_cons_of_mem a hx))]
    cases t with
    | nil => rfl
    | cons b u =>
      exact insertDesc_cons_of_le _ _ _ _ (by
        rw [h b (by simp), h a (by simp)])

/-- Page-1 fragment with 2-character content. -/
def pageCex1 : Chunk := Chunk.mk "p1" 1 "aa"

/-- Page-1 fragment with 4-character content (the page-1 representative). -/
def pageCex2 : Chunk := Chunk.mk "p2" 1 "bbbb"

/-- Page-2 fragment. -/
def pageCex3 : Chunk := Chunk.mk "p3" 2 "x"

theorem pageCex_scores_zero :
    chunkScore [pageCex1, pageCex2, pageCex3] "zzzz qqqq" pageCex1 = 0 ∧
    chunkScore [pageCex1, pageCex2, pageCex3] "zzzz qqqq" pageCex2 = 0 ∧
    chunkScore [pageCex1, pageCex2, pageCex3] "zzzz qqqq" pageCex3 = 0 := by
  refine ⟨?_, ?_, ?_⟩ <;>
    (rw [chunkScore_of_no_matches _ _ _ (by decide)]; exact if_neg (by decide))

theorem pageCex_select_empty :
    selectTopChunks [pageCex1, pageCex2, pageCex3] "zzzz qqqq" none = [] := by
  unfold selectTopChunks
  rw [if_neg (by decide :
    ¬ (isGraphQuery "zzzz qqqq" &&
      !(([pageCex1, pageCex2, pageCex3].filter (fun c => hasGraphMarker c.content)).isEmpty)) =
        true)]
  rw [List.map_cons, List.map_cons, List.map_cons, List.map_nil]
  obtain ⟨h1, h2, h3⟩ := pageCex_scores_zero
  rw [h1, h2, h3]
  rw [sortDesc_of_const _ 0 _ (by
    intro x hx
    simp only [List.mem_cons, List.not_mem_nil, or_false] at hx
    rcases hx with rfl | rfl | rfl <;> rfl)]
  have hd : (decide ((0 : ℝ) < (0 : ℝ))) = false := decide_eq_false (lt_irrefl 0)
  simp [List.take, List.filter, hd]

/-- C7: when no candidate scores above 0 (and likewise when the question
yields no keywords of length ≥ 4), `buildContextSmart` does not return a
formatted context string at all: it returns the raw per-page representative
fragment ARRAY (`getPagesRepresentation`'s value), i.e. the `CtxResult.chunks`
constructor rather than `CtxResult.str` — the per-page selection itself is the
earliest longest fragment per page with pages ascending. -/
theorem fallback_returns_fragment_array :
    isGraphQuery "zzzz qqqq" = false ∧
    chunkScore [pageCex1, pageCex2, pageCex3] "zzzz qqqq" pageCex1 = 0 ∧
    chunkScore [pageCex1, pageCex2, pageCex3] "zzzz qqqq" pageCex2 = 0 ∧
    chunkScore [pageCex1, pageCex2, pageCex3] "zzzz qqqq" pageCex3 = 0 ∧
    buildContextSmart [pageCex1, pageCex2, pageCex3] "zzzz qqqq" 6000 none =
      CtxResult.chunks [pageCex2, pageCex3] ∧
    buildContextSmart [pageCex1, pageCex2, pageCex3] "ok go" 6000 none =
      CtxResult.chunks [pageCex2, pageCex3] := by
  obtain ⟨h1, h2, h3⟩ := pageCex_scores_zero
  refine ⟨by decide, h1, h2, h3, ?_, ?_⟩
  · unfold buildContextSmart
    rw [if_neg (by decide : ¬ ((keywordsOf "zzzz qqqq").isEmpty) = true)]
    rw [pageCex_select_empty]
    all_goals decide
  · unfold buildContextSmart
    rw [if_pos (by decide : ((keywordsOf "ok go").isEmpty) = true)]
    all_goals decide

/-! ## Graph template catalog and classifier (claim C6) -/

/-- One curve description of a template. -/
structure Curve where
  name : String
  slope : String
  meaning : String
deriving DecidableEq

/-- A static graph template: keyword set, axis meanings, ordered curve
descriptions and the insight sentence. -/
structure GraphTemplate where
  keywords : List String
  axesX : String
  axesY : String
  curves : List Curve
  insight : String
deriving DecidableEq

/-- A flattened catalog entry: domain, template name and template. -/
structure CatalogEntry where
  domain : String
  templateName : String
  template : GraphTemplate
deriving DecidableEq

/-- The result of a successful classification. -/
structure Classification where
  domain : String
  templateName : String
  template : GraphTemplate
  matchScore : Nat
deriving DecidableEq

/-- The static `GRAPH_TEMPLATES` catalog, in JS object insertion order
(domain → template name → template). -/
def GRAPH_TEMPLATES : List (String × List (String × GraphTemplate)) :=
  [("economics",
    [("labor-market-monopsony",
      { keywords := ["monopsony", "labor market", "single firm", "hires labor", "fewer people",
          "underpaid"],
        axesX := "Quantity of Labor (L)", axesY := "Wage Rate (W)",
        curves := [
          { name := "Labor Supply", slope := "upward",
            meaning := "Shows the wage rate workers require at each quantity of labor" },
          { name := "Marginal Cost of Labor (MCL)", slope := "upward (steeper)",
            meaning := "Cost to hire one additional worker, steeper than supply because monopsonist must raise wages for all workers" },
          { name := "Labor Demand / Marginal Revenue Product (MRP)", slope := "downward",
            meaning := "Value/revenue generated by each additional worker" }],
        insight := "Monopsonist hires where MCL = MRP (fewer workers than competitive market) and pays the wage from the supply curve (lower than competitive wage)" }),
     ("supply-demand",
      { keywords := ["supply", "demand", "equilibrium", "market", "price", "quantity"],
        axesX := "Quantity (Q)", axesY := "Price (P)",
        curves := [
          { name := "Demand", slope := "downward",
            meaning := "Quantity consumers want to buy at each price" },
          { name := "Supply", slope := "upward",
            meaning := "Quantity producers want to sell at each price" }],
        insight := "Equilibrium occurs where supply equals demand" }),
     ("cost-curves",
      { keywords := ["marginal cost", "average cost", "MC", "AC", "ATC", "AVC", "profit",
          "minimize"],
        axesX := "Quantity (Q)", axesY := "Cost ($)",
        curves := [
          { name := "Marginal Cost (MC)", slope := "U-shaped then rising",
            meaning := "Cost of producing one additional unit" },
          { name := "Average Total Cost (ATC)", slope := "U-shaped",
            meaning := "Total cost divided by quantity" },
          { name := "Average Variable Cost (AVC)", slope := "U-shaped",
            meaning := "Variable cost divided by quantity" }],
        insight := "MC intersects ATC and AVC at their minimum points" }),
     ("production-possibilities",
      { keywords := ["production possibilities", "PPF", "PPC", "opportunity cost", "tradeoff",
          "efficiency"],
        axesX := "Good A (quantity)", axesY := "Good B (quantity)",
        curves := [
          { name := "Production Possibilities Frontier", slope := "bowed outward (concave)",
            meaning := "Shows maximum combinations of two goods that can be produced with available resources" }],
        insight := "Points on the curve are efficient; inside is inefficient; outside is unattainable with current resources" }),
     ("aggregate-supply-demand",
      { keywords := ["aggregate", "AS", "AD", "GDP", "price level", "macroeconomic", "LRAS",
          "SRAS"],
        axesX := "Real GDP (Y)", axesY := "Price Level (P)",
        curves := [
          { name := "Aggregate Demand (AD)", slope := "downward",
            meaning := "Total spending in the economy at each price level" },
          { name := "Short-Run Aggregate Supply (SRAS)", slope := "upward",
            meaning := "Total production in short run at each price level" },
          { name := "Long-Run Aggregate Supply (LRAS)", slope := "vertical",
            meaning := "Full employment output level" }],
        insight := "Macroeconomic equilibrium occurs where AD intersects AS; LRAS shows potential GDP" })]),
   ("calculus",
    [("derivative-graph",
      { keywords := ["derivative", "slope", "tangent", "rate of change", "increasing",
          "decreasing"],
        axesX := "x", axesY := "f(x) or y",
        curves := [
          { name := "Original function f(x)", slope := "varies",
            meaning := "The function being analyzed" },
          { name := "Tangent line", slope := "linear",
            meaning := "Shows instantaneous rate of change at a point" }],
        insight := "Derivative represents the slope of the tangent line at each point" }),
     ("integral-area",
      { keywords := ["integral", "area", "accumulation", "antiderivative", "bounded"],
        axesX := "x", axesY := "f(x) or y",
        curves := [
          { name := "Function curve", slope := "varies",
            meaning := "The function being integrated" },
          { name := "Shaded region", slope := "N/A",
            meaning := "Area represents the definite integral" }],
        insight := "Integral calculates the accumulated area under the curve" }),
     ("critical-points",
      { keywords := ["critical point", "local maximum", "local minimum", "extrema",
          "first derivative", "second derivative"],
        axesX := "x", axesY := "f(x)",
        curves := [
          { name := "Function curve", slope := "varies with peaks/valleys",
            meaning := "Shows where derivative equals zero or is undefined" }],
        insight := "Critical points occur where f\x27(x) = 0; use second derivative test to classify as max, min, or inflection point" }),
     ("concavity",
      { keywords := ["concave", "convex", "inflection point", "second derivative", "curvature"],
        axesX := "x", axesY := "f(x)",
        curves := [
          { name := "Function curve", slope := "changes curvature",
            meaning := "Concave up (f\x27\x27 > 0) looks like U; concave down (f\x27\x27 < 0) looks like ∩" }],
        insight := "Inflection points occur where concavity changes (f\x27\x27(x) = 0 and sign changes)" })]),
   ("biology",
    [("population-growth",
      { keywords := ["population", "growth", "carrying capacity", "exponential", "logistic",
          "limiting factors"],
        axesX := "Time (t)", axesY := "Population Size (N)",
        curves := [
          { name := "Exponential Growth", slope := "J-shaped curve",
            meaning := "Unlimited growth when resources are abundant" },
          { name := "Logistic Growth", slope := "S-shaped curve",
            meaning := "Growth slows as population approaches carrying capacity" }],
        insight := "Carrying capacity (K) is the maximum population size the environment can sustain; logistic growth levels off at K" }),
     ("enzyme-kinetics",
      { keywords := ["enzyme", "substrate", "reaction rate", "Michaelis-Menten", "Vmax", "Km",
          "saturation"],
        axesX := "Substrate Concentration [S]", axesY := "Reaction Rate (V)",
        curves := [
          { name := "Michaelis-Menten curve", slope := "hyperbolic (steep then plateau)",
            meaning := "Shows how reaction rate increases with substrate concentration until enzyme saturation" }],
        insight := "Vmax is maximum rate when all enzyme active sites are occupied; Km is substrate concentration at half Vmax" }),
     ("cell-cycle",
      { keywords := ["cell cycle", "interphase", "mitosis", "G1", "S", "G2", "M phase",
          "checkpoint"],
        axesX := "Time", axesY := "DNA Content or Cell Count",
        curves := [
          { name := "DNA content over time", slope := "stepwise increase",
            meaning := "DNA doubles during S phase, remains constant in G1/G2, halves after division" }],
        insight := "Cell cycle consists of interphase (G1, S, G2) and mitotic phase (M); DNA replication occurs only in S phase" }),
     ("photosynthesis-light",
      { keywords := ["photosynthesis", "light intensity", "rate", "limiting factor",
          "compensation point", "light saturation"],
        axesX := "Light Intensity", axesY := "Rate of Photosynthesis",
        curves := [
          { name := "Photosynthetic rate curve", slope := "increases then plateaus",
            meaning := "Rate increases with light until other factors (CO2, temp) become limiting" }],
        insight := "Light compensation point: where photosynthesis = respiration; light saturation point: where light no longer limits rate" }),
     ("ecological-pyramid",
      { keywords := ["energy pyramid", "biomass", "trophic level", "producer", "consumer",
          "10% rule"],
        axesX := "Trophic Level", axesY := "Energy or Biomass",
        curves := [
          { name := "Pyramid shape", slope := "decreases with each level",
            meaning := "Shows energy/biomass decreases at each trophic level" }],
        insight := "Only ~10% of energy transfers between trophic levels; producers (bottom) have most energy, top predators (top) have least" })]),
   ("chemistry",
    [("titration-curve",
      { keywords := ["titration", "pH", "acid", "base", "equivalence point", "buffer",
          "neutralization"],
        axesX := "Volume of Titrant Added (mL)", axesY := "pH",
        curves := [
          { name := "Strong acid-strong base", slope := "sharp vertical rise at equivalence",
            meaning := "pH jumps dramatically at equivalence point (pH = 7)" },
          { name := "Weak acid-strong base", slope := "gradual rise with buffer region",
            meaning := "Has buffer region before equivalence; equivalence pH > 7" }],
        insight := "Equivalence point: moles acid = moles base; buffer region resists pH change; indicator changes color at endpoint" }),
     ("reaction-rate",
      { keywords := ["reaction rate", "concentration", "time", "order", "rate law", "kinetics"],
        axesX := "Time (s or min)", axesY := "Concentration (M)",
        curves := [
          { name := "Reactant concentration", slope := "decreases exponentially",
            meaning := "Reactant concentration decreases as reaction proceeds" },
          { name := "Product concentration", slope := "increases exponentially",
            meaning := "Product concentration increases over time" }],
        insight := "Reaction rate = change in concentration / change in time; steeper slope = faster reaction" }),
     ("phase-diagram",
      { keywords := ["phase", "solid", "liquid", "gas", "triple point", "critical point",
          "sublimation", "deposition"],
        axesX := "Temperature (K or °C)", axesY := "Pressure (atm or kPa)",
        curves := [
          { name := "Solid-liquid boundary", slope := "nearly vertical",
            meaning := "Melting/freezing line" },
          { name := "Liquid-gas boundary", slope := "curved upward",
            meaning := "Vaporization/condensation line" },
          { name := "Solid-gas boundary", slope := "curved",
            meaning := "Sublimation/deposition line" }],
        insight := "Triple point: all 3 phases coexist; critical point: beyond this, liquid and gas are indistinguishable" }),
     ("equilibrium",
      { keywords := ["equilibrium", "Le Chatelier", "forward", "reverse", "Keq",
          "reaction quotient"],
        axesX := "Time", axesY := "Concentration",
        curves := [
          { name := "Reactants", slope := "decreases then plateaus",
            meaning := "Reactant concentration decreases until equilibrium" },
          { name := "Products", slope := "increases then plateaus",
            meaning := "Product concentration increases until equilibrium" }],
        insight := "At equilibrium: forward rate = reverse rate; concentrations constant (not equal); Keq = [products]/[reactants]" })]),
   ("physics",
    [("position-time",
      { keywords := ["position", "displacement", "distance", "time", "motion", "velocity"],
        axesX := "Time (s)", axesY := "Position (m)",
        curves := [
          { name := "Position vs time", slope := "varies",
            meaning := "Slope represents velocity; steeper = faster" }],
        insight := "Slope of position-time graph gives velocity; curved line = changing velocity (acceleration)" }),
     ("velocity-time",
      { keywords := ["velocity", "speed", "time", "acceleration", "constant", "motion"],
        axesX := "Time (s)", axesY := "Velocity (m/s)",
        curves := [
          { name := "Velocity vs time", slope := "varies",
            meaning := "Slope represents acceleration; area under curve = displacement" }],
        insight := "Slope gives acceleration; horizontal line = constant velocity; area under curve = total displacement" }),
     ("force-diagram",
      { keywords := ["force", "Newton", "net force", "tension", "friction", "normal force",
          "weight"],
        axesX := "horizontal", axesY := "vertical",
        curves := [
          { name := "Force vectors", slope := "arrows",
            meaning := "Each arrow represents a force (length = magnitude, direction = direction)" }],
        insight := "Net force = vector sum of all forces; if net force = 0, object is in equilibrium (Newton\x27s 1st law)" }),
     ("energy-conservation",
      { keywords := ["energy", "kinetic", "potential", "conservation", "mechanical", "work"],
        axesX := "Position or Time", axesY := "Energy (J)",
        curves := [
          { name := "Kinetic Energy", slope := "varies inversely with potential",
            meaning := "Energy of motion (KE = ½mv²)" },
          { name := "Potential Energy", slope := "varies inversely with kinetic",
            meaning := "Stored energy (PE = mgh for gravity)" },
          { name := "Total Mechanical Energy", slope := "horizontal",
            meaning := "Sum of KE + PE remains constant if no friction" }],
        insight := "In isolated system, total mechanical energy is conserved; KE and PE convert between each other" })])]

/-- The catalog flattened in iteration order: `Object.entries` of the outer
object, then `Object.entries` of each domain's templates, preserves insertion
order, so the two nested loops of `classifyGraphType` visit exactly this
sequence. -/
def catalogFlat : List CatalogEntry :=
  GRAPH_TEMPLATES.flatMap (fun d => d.2.map (fun t => CatalogEntry.mk d.1 t.1 t.2))

/-- `${textLower} ${elementsLower}`: the lower-cased surrounding text and
visible elements joined by one space. -/
def combinedText (surroundingText visibleElements : String) : List Char :=
  lowerL surroundingText.data ++ (' ' :: lowerL visibleElements.data)

/-- A template's score: the number of its keywords occurring (lower-cased) as
substrings of the combined text. -/
def templScore (combined : List Char) (t : GraphTemplate) : Nat :=
  (t.keywords.filter (fun kw => containsSub (lowerL kw.data) combined)).length

/-- The classifier loop: a single running best (`bestMatch`/`bestScore`,
starting at `none`/`0`) updated only on STRICT improvement
(`if (score > bestScore)`), over the catalog in iteration order. -/
def goClassify (combined : List Char) :
    List CatalogEntry → Option Classification → Nat → Option Classification
  | [], best, _ => best
  | e :: rest, best, bestScore =>
    if bestScore < templScore combined e.template then
      goClassify combined rest
        (some (Classification.mk e.domain e.templateName e.template
          (templScore combined e.template)))
        (templScore combined e.template)
    else goClassify combined rest best bestScore

/-- `classifyGraphType(surroundingText, visibleElements)`. -/
def classifyGraphType (surroundingText visibleElements : String) : Option Classification :=
  goClassify (combinedText surroundingText visibleElements) catalogFlat none 0

/-- Specification-side classifier, following the spec's words: compute every
template's keyword-count score; if the maximum over the catalog is 0 return
`none`, otherwise return the FIRST catalog entry (in iteration order)
attaining the maximum, with that maximum as the match score. -/
def classifySpec (surroundingText visibleElements : String) : Option Classification :=
  if ((catalogFlat.map (fun e =>
        templScore (combinedText surroundingText visibleElements) e.template)).foldr max 0) = 0
  then none
  else (catalogFlat.find? (fun e =>
      templScore (combinedText surroundingText visibleElements) e.template ==
        (catalogFlat.map (fun e =>
          templScore (combinedText surroundingText visibleElements) e.template)).foldr max 0)).map
    (fun e => Classification.mk e.domain e.templateName e.template
      ((catalogFlat.map (fun e =>
        templScore (combinedText surroundingText visibleElements) e.template)).foldr max 0))

theorem goClassify_spec (combined : List Char) :
    ∀ (L : List CatalogEntry) (best : Option Classification) (bs : Nat),
      goClassify combined L best bs =
        if (L.map (fun e => templScore combined e.template)).foldr max 0 ≤ bs then best
        else (L.find? (fun e => templScore combined e.template ==
            (L.map (fun e => templScore combined e.template)).foldr max 0)).map
          (fun e => Classification.mk e.domain e.templateName e.template
            ((L.map (fun e => templScore combined e.template)).foldr max 0)) := by
  intro L
  induction L with
  | nil =>
    intro best bs
    simp only [List.map_nil, List.foldr_nil]
    rw [if_pos (Nat.zero_le bs)]
    rfl
  | cons e rest ih =>
    intro best bs
    rw [goClassify, List.map_cons, List.foldr_cons]
    by_cases hA : bs < templScore combined e.template
    · rw [if_pos hA, ih]
      by_cases hA1 :
          (rest.map (fun e => templScore combined e.template)).foldr max 0 ≤
            templScore combined e.template
      · rw [if_pos hA1,
          if_neg (by omega :
            ¬ max (templScore combined e.template)
              ((rest.map (fun e => templScore combined e.template)).foldr max 0) ≤ bs),
          List.find?_cons_of_pos _ (by
            rw [beq_iff_eq]; omega)]
        have : max (templScore combined e.template)
            ((rest.map (fun e => templScore combined e.template)).foldr max 0) =
            templScore combined e.template := by omega
        rw [this]
        rfl
      · rw [if_neg hA1,
          if_neg (by omega :
            ¬ max (templScore combined e.template)
              ((rest.map (fun e => templScore combined e.template)).foldr max 0) ≤ bs),
          List.find?_cons_of_neg _ (by
            rw [beq_iff_eq]; omega)]
        have : max (templScore combined e.template)
            ((rest.map (fun e => templScore combined e.template)).foldr max 0) =
            (rest.map (fun e => templScore combined e.template)).foldr max 0 := by omega
        rw [this]
    · rw [if_neg hA, ih]
      by_cases hB1 :
          (rest.map (fun e => templScore combined e.template)).foldr max 0 ≤ bs
      · rw [if_pos hB1,
          if_pos (by omega :
            max (templScore combined e.template)
              ((rest.map (fun e => templScore combined e.template)).foldr max 0) ≤ bs)]
      · rw [if_neg hB1,
          if_neg (by omega :
            ¬ max (templScore combined e.template)
              ((rest.map (fun e => templScore combined e.template)).foldr max 0) ≤ bs),
          List.find?_cons_of_neg _ (by
            rw [beq_iff_eq]; omega)]
        have : max (templScore combined e.template)
            ((rest.map (fun e => templScore combined e.template)).foldr max 0) =
            (rest.map (fun e => templScore combined e.template)).foldr max 0 := by omega
        rw [this]

/-- C6: the classifier agrees everywhere with its specification: it returns
`none` exactly when every template's keyword-count score over the combined
text is 0, and otherwise returns the first catalog entry (in iteration order)
attaining the maximum score, carrying that maximum as `matchScore` — so ties
go to the earlier entry. -/
theorem classify_eq_spec (surroundingText visibleElements : String) :
    classifyGraphType surroundingText visibleElements =
      classifySpec surroundingText visibleElements := by
  unfold classifyGraphType classifySpec
  rw [goClassify_spec]
  by_cases h : ((catalogFlat.map (fun e =>
      templScore (combinedText surroundingText visibleElements) e.template)).foldr max 0) = 0
  · rw [if_pos (by omega), if_pos h]
  · rw [if_neg (by omega), if_neg h]

/-! ## Enricher: templated or inferred graph interpretation (claim C9) -/

/-- JS `parts.join(sep)`. -/
def joinSep (sep : String) : List String → String
  | [] => ""
  | [b] => b
  | b :: b' :: bs => b ++ sep ++ joinSep sep (b' :: bs)

/-- The transient per-figure metadata (`graphMetadata` in the source):
caption, comma-joined visible elements, comma-joined missing-element names and
the inference flag. -/
structure FigMeta where
  caption : String
  extractedText : String
  missingElements : String
  needsContextInference : Bool
deriving DecidableEq

/-- JS global replacement of every dash in the template name by a space. -/
def dashToSpace (s : String) : String := String.map (fun c => if c = '-' then ' ' else c) s

/-- The ordered curve descriptions of the template block. -/
def curveDescriptions (t : GraphTemplate) : String :=
  joinSep "\n" (t.curves.enum.map (fun p =>
    "- **Curve " ++ toString (p.1 + 1) ++ ": " ++ p.2.name ++ "** (" ++ p.2.slope ++ ")\n  " ++
      p.2.meaning))

/-- The deterministic template-rendered interpretation block, wrapped in
`[GRAPH STRUCTURE] ... [END GRAPH STRUCTURE]`. -/
def templateBlock (cl : Classification) (meta : FigMeta) : String :=
  "[GRAPH STRUCTURE]\n**Graph Type:** " ++ dashToSpace cl.templateName ++ " (" ++ cl.domain ++
    ")\n\n**Axes:**\n- X-axis: " ++ cl.template.axesX ++ "\n- Y-axis: " ++ cl.template.axesY ++
    "\n\n**Curves/Lines:**\n" ++ curveDescriptions cl.template ++
    "\n\n**Key Insight:** " ++ cl.template.insight ++
    "\n\n**Visible Elements Detected:** " ++
    (if meta.extractedText = "" then "minimal labels" else meta.extractedText) ++
    "\n\n**Note:** This interpretation is based on standard " ++ cl.domain ++
    " graph conventions and the surrounding context discussing " ++
    joinSep ", " (cl.template.keywords.take 3) ++ ".\n[END GRAPH STRUCTURE]"

/-- The stub block emitted when the inference call fails. -/
def stubBlock : String :=
  "[GRAPH STRUCTURE]\n**Graph Type:** Cannot be determined\n**Note:** Automatic graph structure analysis failed. Refer to surrounding context.\n[END GRAPH STRUCTURE]"

/-- The wrapper around a successful inference reply (`scaffolding` plus the
fallback notice, inside the same markers). -/
def inferredBlock (s : String) : String :=
  "[GRAPH STRUCTURE]\n" ++ s ++
    "\n\n[FALLBACK NOTICE]: The above interpretation is based on surrounding context. If asked about specific visual elements not described above, respond: \"I can see the general structure but cannot identify that specific element from the available information.\"\n[END GRAPH STRUCTURE]"

/-- The inference path: the external generative call is modelled by an oracle
from the figure metadata and surrounding text to `some reply` (success, the
reply already normalized by the source's `|| ''`) or `none` (the call threw);
a failure yields the stub block, locally. -/
def inferOrStub (oracle : FigMeta → String → Option String) (meta : FigMeta)
    (sur : String) : String :=
  match oracle meta sur with
  | some s => inferredBlock s
  | none => stubBlock

/-- `scaffoldGraphPrompt(graphMetadata, surroundingText)`: template path when
the classification's matchScore is at least 2, otherwise the inference path. -/
def scaffoldGraphPrompt (oracle : FigMeta → String → Option String) (meta : FigMeta)
    (sur : String) : String :=
  match classifyGraphType sur meta.extractedText with
  | some cl => if 2 ≤ cl.matchScore then templateBlock cl meta else inferOrStub oracle meta sur
  | none => inferOrStub oracle meta sur

/-- A page as handed to the enrichment loop. -/
structure PageText where
  pageNumber : Nat
  text : String
  figureMetadata : List FigMeta
deriving DecidableEq

/-- First-occurrence replacement over character lists (JS
`String.prototype.replace` with a string pattern). -/
def replaceFirstL (pat rep : List Char) : List Char → List Char
  | [] => if pat.isEmpty then rep else []
  | c :: t =>
    if hasPrefixL pat (c :: t) then rep ++ (c :: t).drop pat.length
    else c :: replaceFirstL pat rep t

/-- First-occurrence replacement on strings. -/
def replaceFirst (hay pat rep : String) : String :=
  String.mk (replaceFirstL pat.data rep.data hay.data)

/-- `[END FIGURE n]` for the figure at index `figIdx` (1-based in the text). -/
def endFigureMarker (figIdx : Nat) : String := "[END FIGURE " ++ toString (figIdx + 1) ++ "]"

/-- The per-page enrichment loop: for each figure in order, scaffold an
interpretation from the CURRENT page text and splice it immediately before
that figure's `[END FIGURE n]` marker (the source's
`page.text.replace(figureMarker, interpretation + "\n" + figureMarker)`),
guarded by the source's truthiness check on the scaffolded string. -/
def enrichGo (oracle : FigMeta → String → Option String) :
    List FigMeta → Nat → String → String
  | [], _, text => text
  | m :: ms, figIdx, text =>
    enrichGo oracle ms (figIdx + 1)
      (if scaffoldGraphPrompt oracle m text = "" then text
       else replaceFirst text (endFigureMarker figIdx)
         (scaffoldGraphPrompt oracle m text ++ "\n" ++ endFigureMarker figIdx))

/-- Enrichment of one page. -/
def enrichPage (oracle : FigMeta → String → Option String) (p : PageText) : PageText :=
  PageText.mk p.pageNumber (enrichGo oracle p.figureMetadata 0 p.text) p.figureMetadata

/-- `enrichGraphDescriptions(pageTexts)`: every page is processed, each
independently of the others. -/
def enrichGraphDescriptions (oracle : FigMeta → String → Option String)
    (pages : List PageText) : List PageText :=
  pages.map (enrichPage oracle)

theorem scaffold_of_some (oracle : FigMeta → String → Option String) (meta : FigMeta)
    (sur : String) (cl : Classification)
    (h : classifyGraphType sur meta.extractedText = some cl) :
    scaffoldGraphPrompt oracle meta sur =
      if 2 ≤ cl.matchScore then templateBlock cl meta else inferOrStub oracle meta sur := by
  unfold scaffoldGraphPrompt
  rw [h]

theorem scaffold_of_none (oracle : FigMeta → String → Option String) (meta : FigMeta)
    (sur : String) (h : classifyGraphType sur meta.extractedText = none) :
    scaffoldGraphPrompt oracle meta sur = inferOrStub oracle meta sur := by
  unfold scaffoldGraphPrompt
  rw [h]

theorem templateBlock_ne_empty (cl : Classification) (meta : FigMeta) :
    templateBlock cl meta ≠ "" := by
  intro he
  unfold templateBlock at he
  have h2 := congrArg String.length he
  simp only [String.length_append,
    show ("" : String).length = 0 from rfl] at h2
  have h3 : ("[GRAPH STRUCTURE]\n**Graph Type:** " : String).length = 34 := rfl
  omega

theorem inferredBlock_ne_empty (s : String) : inferredBlock s ≠ "" := by
  intro he
  unfold inferredBlock at he
  have h2 := congrArg String.length he
  simp only [String.length_append,
    show ("" : String).length = 0 from rfl] at h2
  have h3 : ("[GRAPH STRUCTURE]\n" : String).length = 18 := rfl
  omega

theorem inferOrStub_ne_empty (oracle : FigMeta → String → Option String) (m : FigMeta)
    (s : String) : inferOrStub oracle m s ≠ "" := by
  unfold inferOrStub
  cases oracle m s with
  | none => decide
  | some r => exact inferredBlock_ne_empty r

theorem scaffold_ne_empty (oracle : FigMeta → String → Option String) (meta : FigMeta)
    (sur : String) : scaffoldGraphPrompt oracle meta sur ≠ "" := by
  cases hcl : classifyGraphType sur meta.extractedText with
  | none =>
    rw [scaffold_of_none oracle meta sur hcl]
    exact inferOrStub_ne_empty oracle meta sur
  | some cl =>
    rw [scaffold_of_some oracle meta sur cl hcl]
    by_cases h2 : 2 ≤ cl.matchScore
    · rw [if_pos h2]
      exact templateBlock_ne_empty cl meta
    · rw [if_neg h2]
      exact inferOrStub_ne_empty oracle meta sur

/-- C9: (1) when the classification's matchScore is at least 2 the enricher
renders the deterministic template block — independent of the inference
oracle; (2) otherwise it takes the inference path, and an inference failure
yields exactly the minimal stub block; (3) the enrichment loop always
continues past each figure (a non-empty block, failed or not, is spliced
before that figure's end marker and the remaining figures are processed); and
(4) enrichment processes every page independently, so a failure on one
page/figure leaves the others' enrichment unaffected. -/
theorem scaffold_enrich_error_locality :
    (∀ (oracle oracle2 : FigMeta → String → Option String) (meta : FigMeta) (sur : String)
        (cl : Classification),
      classifyGraphType sur meta.extractedText = some cl → 2 ≤ cl.matchScore →
        scaffoldGraphPrompt oracle meta sur = templateBlock cl meta ∧
        scaffoldGraphPrompt oracle meta sur = scaffoldGraphPrompt oracle2 meta sur) ∧
    (∀ (oracle : FigMeta → String → Option String) (meta : FigMeta) (sur : String),
      (∀ cl, classifyGraphType sur meta.extractedText = some cl → cl.matchScore < 2) →
      oracle meta sur = none →
      scaffoldGraphPrompt oracle meta sur = stubBlock) ∧
    (∀ (oracle : FigMeta → String → Option String) (m : FigMeta) (ms : List FigMeta)
        (figIdx : Nat) (text : String),
      enrichGo oracle (m :: ms) figIdx text =
        enrichGo oracle ms (figIdx + 1)
          (replaceFirst text (endFigureMarker figIdx)
            (scaffoldGraphPrompt oracle m text ++ "\n" ++ endFigureMarker figIdx))) ∧
    (∀ (oracle : FigMeta → String → Option String) (pages : List PageText),
      enrichGraphDescriptions oracle pages = pages.map (enrichPage oracle)) := by
  refine ⟨?_, ?_, ?_, ?_⟩
  · intro oracle oracle2 meta sur cl hcl h2
    constructor
    · rw [scaffold_of_some oracle meta sur cl hcl, if_pos h2]
    · rw [scaffold_of_some oracle meta sur cl hcl, scaffold_of_some oracle2 meta sur cl hcl,
        if_pos h2, if_pos h2]
  · intro oracle meta sur hlow hfail
    cases hcl : classifyGraphType sur meta.extractedText with
    | none =>
      rw [scaffold_of_none oracle meta sur hcl]
      unfold inferOrStub
      rw [hfail]
    | some cl =>
      rw [scaffold_of_some oracle meta sur cl hcl, if_neg (by have := hlow cl hcl; omega)]
      unfold inferOrStub
      rw [hfail]
  · intro oracle m ms figIdx text
    rw [enrichGo, if_neg (scaffold_ne_empty oracle m text)]
  · intro oracle pages
    rfl

/-- Witness for C9 at concrete inputs: the inference-failure path of a figure
whose surrounding text classifies to nothing emits the stub block. -/
theorem scaffold_enrich_error_locality_witness :
    scaffoldGraphPrompt (fun _ _ => none) (FigMeta.mk "" "" "" true) "" = stubBlock :=
  scaffold_enrich_error_locality.2.1 (fun _ _ => none) (FigMeta.mk "" "" "" true) ""
    (by
      intro cl hcl
      rw [(by decide : classifyGraphType "" "" = none)] at hcl
      cases hcl)
    rfl

/-! ## Figure extraction and the implied-graph fallback (claim C8) -/

/-- One layout line of a page: its text and whether the layout service gave it
position data (`line.polygon || line.boundingRegions`). -/
structure LayoutLine where
  content : String
  positioned : Bool
deriving DecidableEq

/-- A figure region reported by the layout service (caption optional;
JS falsiness also treats an empty caption as absent). -/
structure FigureRegion where
  caption : Option String
deriving DecidableEq

/-- One extracted figure: its rendered `[FIGURE n] ...` text, the transient
metadata record, and its index. -/
structure FigurePart where
  text : String
  metadata : FigMeta
  figureIndex : Nat
deriving DecidableEq

/-- JS `String.prototype.trim` over the whitespace characters the system
meets. -/
def trimL (l : List Char) : List Char :=
  ((l.dropWhile (fun c => isSpaceChar c)).reverse.dropWhile (fun c => isSpaceChar c)).reverse

/-- Trim of a string. -/
def trimS (s : String) : String := String.mk (trimL s.data)

/-- The axis-label test, regex `(^(x|y|z)[-\s]?axis)|horizontal|vertical`
case-insensitively: an x/y/z prefix followed by an optional dash or space and
then `axis`, or the words horizontal/vertical anywhere. -/
def axisTest (s : String) : Bool :=
  (match lowerL s.data with
   | c :: rest =>
     (c = 'x' || c = 'y' || c = 'z') &&
       (hasPrefixL "axis".data rest ||
        (match rest with
         | d :: rest2 => (d = '-' || isSpaceChar d) && hasPrefixL "axis".data rest2
         | [] => false))
   | [] => false) ||
  containsSub "horizontal".data (lowerL s.data) || containsSub "vertical".data (lowerL s.data)

/-- One real (layout-reported) figure's part: caption defaulting, visible
elements from positioned lines, missing-element flags and the rendered
`[FIGURE n]` block.  The source also computes a `hasNumbers` flag that it
never uses; it is not modelled.  Note the source's title push condition
`!hasTitle && !caption` can never fire because `caption` has already been
defaulted to a non-empty string; it is modelled verbatim. -/
def realFigurePart (allLines : List LayoutLine) (fig : FigureRegion) (fIndex : Nat) :
    FigurePart :=
  let caption := match fig.caption with
    | some s => if s = "" then "No caption provided" else s
    | none => "No caption provided"
  let graphElements := (allLines.filter (fun ln => ln.positioned)).map (fun ln => ln.content)
  let extractedText := joinSep ", " graphElements
  let hasAxisLabels := graphElements.any axisTest
  let hasLegend := containsSub "legend".data (lowerL caption.data) ||
    graphElements.any (fun s =>
      containsSub "legend".data (lowerL s.data) || containsSub "key".data (lowerL s.data))
  let hasTitle := 10 < caption.length || graphElements.any (fun s => 20 < s.length)
  let missingList := (if !hasAxisLabels then ["axis labels"] else []) ++
    (if !hasLegend then ["legend"] else []) ++
    (if !hasTitle && caption = "" then ["title"] else [])
  let missingStr := if missingList.isEmpty then "none identified" else joinSep ", " missingList
  FigurePart.mk
    ("\n[FIGURE " ++ toString (fIndex + 1) ++ "]\nCaption: " ++ caption ++
      "\nVisible Elements: " ++
      (if extractedText = "" then "minimal text" else extractedText) ++
      "\nMissing: " ++ missingStr ++ "\n[END FIGURE " ++ toString (fIndex + 1) ++ "]")
    (FigMeta.mk caption extractedText missingStr (!missingList.isEmpty))
    fIndex

/-- `lineText`: the page's line contents joined by newlines. -/
def lineTextOf (allLines : List LayoutLine) : String :=
  joinSep "\n" (allLines.map (fun ln => ln.content))

/-- A single-letter line (`/^[A-Z]$/i` on the trimmed content). -/
def isSingleLetterLine (trimmed : List Char) : Bool :=
  match trimmed with
  | [c] => c.isAlpha
  | _ => false

/-- The tail of regex `\s*.+` after the equals sign: some leading whitespace
given back so that at least one non-line-terminator character remains for
`.+` (`.` matches any character except a line terminator). -/
def eqTailMatch (t : List Char) : Bool :=
  !(t.dropWhile (fun c => isSpaceChar c)).isEmpty ||
    (t.takeWhile (fun c => isSpaceChar c)).any (fun c => !(c = '\n' || c = '\r'))

/-- After the leading uppercase letters: `\s*=\s*.+`. -/
def eqRest : List Char → Bool
  | [] => false
  | c :: t => if isSpaceChar c then eqRest t else c = '=' && eqTailMatch t

/-- An equation line (`/^[A-Z]{1,3}\s*=\s*.+/` on the trimmed content): one to
three leading uppercase letters — a longer run cannot match, since the
character after at most three consumed letters would be a letter, not `=` or
whitespace — then the equals tail. -/
def hasEquationLine (trimmed : List Char) : Bool :=
  let run := trimmed.takeWhile (fun c => c.isUpper)
  decide (1 ≤ run.length) && decide (run.length ≤ 3) && eqRest (trimmed.drop run.length)

/-- A line mentioning figure/graph/chart/diagram (case-insensitive
substring). -/
def mentionsFigureLine (trimmed : List Char) : Bool :=
  containsSub "figure".data (lowerL trimmed) || containsSub "graph".data (lowerL trimmed) ||
  containsSub "chart".data (lowerL trimmed) || containsSub "diagram".data (lowerL trimmed)

/-- `hasGraphIndicators`: some line (trimmed) is a single letter, an equation
or a figure mention. -/
def hasGraphIndicators (allLines : List LayoutLine) : Bool :=
  allLines.any (fun ln =>
    isSingleLetterLine (trimL ln.content.data) || hasEquationLine (trimL ln.content.data) ||
      mentionsFigureLine (trimL ln.content.data))

/-- Split at newline characters. -/
def splitNl : List Char → List (List Char)
  | [] => [[]]
  | c :: t =>
    if c = '\n' then [] :: splitNl t
    else match splitNl t with
      | [] => [[c]]
      | seg :: segs => (c :: seg) :: segs

/-- The suffix just after the first occurrence of `needle`, if any. -/
def afterSub (needle : List Char) : List Char → Option (List Char)
  | [] => if needle.isEmpty then some [] else none
  | c :: t =>
    if hasPrefixL needle (c :: t) then some ((c :: t).drop needle.length)
    else afterSub needle t

/-- Three substrings in order inside one list. -/
def inOrder3 (a b c hay : List Char) : Bool :=
  match afterSub a hay with
  | none => false
  | some r1 =>
    match afterSub b r1 with
    | none => false
    | some r2 => (afterSub c r2).isSome

/-- `hasGraphSection`: the phrase-pattern regex
`labor market under monopsony|supply.*demand.*curve|equilibrium` (`i` flag)
over the joined line text; `.` does not cross newlines, so the middle
alternative must fall inside a single newline-free segment. -/
def hasGraphSection (allLines : List LayoutLine) : Bool :=
  containsSub "labor market under monopsony".data (lowerL (lineTextOf allLines).data) ||
  (splitNl (lowerL (lineTextOf allLines).data)).any
    (fun seg => inOrder3 "supply".data "demand".data "curve".data seg) ||
  containsSub "equilibrium".data (lowerL (lineTextOf allLines).data)

/-- The synthesized pseudo-figure of the fallback path. -/
def impliedFigurePart (allLines : List LayoutLine) : FigurePart :=
  let graphElements :=
    (allLines.map (fun ln => trimS ln.content)).filter (fun t => t != "")
  FigurePart.mk
    ("\n[FIGURE 1]\nCaption: Implied graph detected\nVisible Elements: " ++
      joinSep ", " (graphElements.take 10) ++
      "\nMissing: axis labels, legend, title (graph not explicitly tagged in PDF)\n[END FIGURE 1]")
    (FigMeta.mk "Implied graph detected from context" (joinSep ", " graphElements)
      "axis labels, legend, title" true)
    0

/-- The figure parts of one page: the layout-reported figures when any exist;
otherwise exactly one implied pseudo-figure when a graph cue is present, and
none when not. -/
def figurePartsOfPage (allLines : List LayoutLine) (figures : List FigureRegion) :
    List FigurePart :=
  if figures.isEmpty then
    if hasGraphIndicators allLines || hasGraphSection allLines then [impliedFigurePart allLines]
    else []
  else figures.enum.map (fun p => realFigurePart allLines p.2 p.1)

/-- C8 (amended): on a page whose layout reports zero figures, a graph cue —
a single-letter line, an equation-shaped line, a figure/graph/chart/diagram
mention, or a known phrase pattern — yields exactly one synthesized
pseudo-figure whose record uses all of the page's (trimmed, non-empty) line
text as visible elements, flags all three missing elements, needs inference,
and is captioned "Implied graph detected from context" (the rendered block's
caption line reads "Implied graph detected"); with no cue, no figure is
synthesized. -/
theorem fallback_figure_synthesis (allLines : List LayoutLine) :
    ((hasGraphIndicators allLines || hasGraphSection allLines) = true →
      figurePartsOfPage allLines [] = [impliedFigurePart allLines]) ∧
    ((hasGraphIndicators allLines || hasGraphSection allLines) = false →
      figurePartsOfPage allLines [] = []) ∧
    (impliedFigurePart allLines).metadata.caption = "Implied graph detected from context" ∧
    (impliedFigurePart allLines).metadata.extractedText =
      joinSep ", " ((allLines.map (fun ln => trimS ln.content)).filter (fun t => t != "")) ∧
    (impliedFigurePart allLines).metadata.missingElements = "axis labels, legend, title" ∧
    (impliedFigurePart allLines).metadata.needsContextInference = true := by
  refine ⟨?_, ?_, rfl, rfl, rfl, rfl⟩
  · intro h
    simp [figurePartsOfPage, h]
  · intro h
    simp [figurePartsOfPage, h]

/-- The C8 page: a single-letter axis line "W" plus an ordinary line, no
layout-reported figures. -/
def impliedCexLines : List LayoutLine :=
  [LayoutLine.mk "W" true, LayoutLine.mk "wages and employment" true]

/-- C8 counterexample: on a page with a graph cue and zero layout figures,
the synthesized record's caption is "Implied graph detected from context" —
not the claim's "Implied graph detected." (with or without the final
period). -/
theorem implied_caption_differs :
    figurePartsOfPage impliedCexLines [] = [impliedFigurePart impliedCexLines] ∧
    (impliedFigurePart impliedCexLines).metadata.caption =
      "Implied graph detected from context" ∧
    ¬ (impliedFigurePart impliedCexLines).metadata.caption = "Implied graph detected." ∧
    ¬ (impliedFigurePart impliedCexLines).metadata.caption = "Implied graph detected" := by
  decide

/-- Witness for C8 at the concrete page with the single-letter cue "W". -/
theorem fallback_figure_synthesis_witness :
    figurePartsOfPage impliedCexLines [] = [impliedFigurePart impliedCexLines] :=
  (fallback_figure_synthesis impliedCexLines).1 (by decide)

/-! ## Ingestion progress state machine (claim C10) -/

/-- The ingestion stages in pipeline order. -/
inductive Stage where
  | uploading
  | analyzing
  | chunking
  | storing
  | complete
deriving DecidableEq

/-- Pipeline order of the stages. -/
def stageRank : Stage → Nat
  | .uploading => 0
  | .analyzing => 1
  | .chunking => 2
  | .storing => 3
  | .complete => 4

/-- One progress write: the stage and percentage stored into the progress
map. -/
structure Prog where
  stage : Stage
  progress : Nat
deriving DecidableEq

/-- `Math.round((pagesProcessed / totalPages) * 100 * 0.4)` over exact
rationals: round-half-up of 40·p/t, i.e. ⌊(80·p + t) / (2·t)⌋. -/
def analysisProgress (p t : Nat) : Nat := (80 * p + t) / (2 * t)

/-- `Math.min(Math.round(40 + 55 * (totalChunks / est)), 95)` over exact
rationals: 40 + round-half-up of 55·tc/e, capped at 95. -/
def storingProgress (tc e : Nat) : Nat := min (40 + (110 * tc + e) / (2 * e)) 95

/-- The `pagesProcessed` values of the analysis loop: batches of 2 pages, so
batch j reports `min (2·(j+1), t)` pages, for j up to ⌈t/2⌉. -/
def analyzeSteps (t : Nat) : List Nat :=
  (List.range ((t + 1) / 2)).map (fun j => min (2 * (j + 1)) t)

/-- Running totals from `acc` of a list of batch sizes. -/
def cumSumsFrom (acc : Nat) : List Nat → List Nat
  | [] => []
  | b :: bs => (acc + b) :: cumSumsFrom (acc + b) bs

/-- The `totalChunks` values at the storage-progress writes, given the sizes
of the written batches. -/
def cumSums (bs : List Nat) : List Nat := cumSumsFrom 0 bs

/-- The sequence of progress-map writes of one successful ingestion run with
`t` total pages, storage batches of sizes `bs`, and estimate `est`
(`Math.max(est, 10)` is applied at each storage write as in the source):
uploading 0 → analyzing 0 → analyzing per batch → chunking 40 → storing per
written batch (capped at 95) → complete 100. -/
def progressTrace (t : Nat) (bs : List Nat) (est : Nat) : List Prog :=
  [Prog.mk .uploading 0, Prog.mk .analyzing 0] ++
  (analyzeSteps t).map (fun p => Prog.mk .analyzing (analysisProgress p t)) ++
  [Prog.mk .chunking 40] ++
  (cumSums bs).map (fun tc => Prog.mk .storing (storingProgress tc (max est 10))) ++
  [Prog.mk .complete 100]

/-- The fixed retention delay before the completed record is evicted
(`setTimeout(() => uploadProgress.delete(documentId), 10000)`). -/
def retentionMs : Nat := 10000

/-- A successful ingestion run: its progress writes and the eviction delay
scheduled at completion. -/
def ingestionRun (t : Nat) (bs : List Nat) (est : Nat) : List Prog × Nat :=
  (progressTrace t bs est, retentionMs)

theorem analyzeSteps_mem {t p : Nat} (hp : p ∈ analyzeSteps t) : p ≤ t ∧ 1 ≤ t := by
  unfold analyzeSteps at hp
  obtain ⟨j, hj, rfl⟩ := List.mem_map.mp hp
  rw [List.mem_range] at hj
  exact ⟨min_le_right _ _, by omega⟩

theorem analysisProgress_le_40 {p t : Nat} (hp : p ≤ t) (ht : 1 ≤ t) :
    analysisProgress p t ≤ 40 := by
  unfold analysisProgress
  calc (80 * p + t) / (2 * t) ≤ (t * 81) / (2 * t) := Nat.div_le_div_right (by omega)
  _ = 40 := by
      rw [show 2 * t = t * 2 from by ring, Nat.mul_div_mul_left _ _ (by omega : 0 < t)]

theorem analysisProgress_mono (t : Nat) {p q : Nat} (h : p ≤ q) :
    analysisProgress p t ≤ analysisProgress q t :=
  Nat.div_le_div_right (by omega)

theorem storingProgress_ge_40 (tc e : Nat) : 40 ≤ storingProgress tc e :=
  le_min (Nat.le_add_right 40 _) (by norm_num)

theorem pairwise_of_mem {α : Type} {R : α → α → Prop} :
    ∀ l : List α, (∀ a ∈ l, ∀ b ∈ l, R a b) → l.Pairwise R := by
  intro l
  induction l with
  | nil => intro _; exact List.Pairwise.nil
  | cons a t ih =>
    intro h
    exact List.Pairwise.cons
      (fun b hb => h a (List.mem_cons_self a t) b (List.mem_cons_of_mem a hb))
      (ih (fun x hx y hy => h x (List.mem_cons_of_mem a hx) y (List.mem_cons_of_mem a hy)))

theorem storingProgress_le_95 (tc e : Nat) : storingProgress tc e ≤ 95 :=
  min_le_right _ _

theorem storingProgress_mono (e : Nat) {a b : Nat} (h : a ≤ b) :
    storingProgress a e ≤ storingProgress b e :=
  min_le_min (by have := Nat.div_le_div_right (c := 2 * e) (by omega : 110 * a + e ≤ 110 * b + e); omega)
    (le_refl 95)

theorem cumSumsFrom_ge (bs : List Nat) : ∀ acc, ∀ x ∈ cumSumsFrom acc bs, acc ≤ x := by
  induction bs with
  | nil => intro acc x hx; cases hx
  | cons b bs ih =>
    intro acc x hx
    rw [cumSumsFrom] at hx
    rcases List.mem_cons.mp hx with rfl | hx
    · omega
    · have := ih (acc + b) x hx
      omega

theorem cumSumsFrom_pairwise (bs : List Nat) :
    ∀ acc, List.Pairwise (· ≤ ·) (cumSumsFrom acc bs) := by
  induction bs with
  | nil => intro acc; exact List.Pairwise.nil
  | cons b bs ih =>
    intro acc
    rw [cumSumsFrom]
    exact List.Pairwise.cons (fun x hx => cumSumsFrom_ge bs (acc + b) x hx) (ih (acc + b))

theorem analyzeSeg_mem {t : Nat} {x : Prog}
    (hx : x ∈ (analyzeSteps t).map (fun p => Prog.mk .analyzing (analysisProgress p t))) :
    x.stage = Stage.analyzing ∧ x.progress ≤ 40 := by
  obtain ⟨p, hp, rfl⟩ := List.mem_map.mp hx
  obtain ⟨h1, h2⟩ := analyzeSteps_mem hp
  exact ⟨rfl, analysisProgress_le_40 h1 h2⟩

theorem storingSeg_mem {bs : List Nat} {est : Nat} {x : Prog}
    (hx : x ∈ (cumSums bs).map (fun tc => Prog.mk .storing (storingProgress tc (max est 10)))) :
    x.stage = Stage.storing ∧ 40 ≤ x.progress ∧ x.progress ≤ 95 := by
  obtain ⟨tc, _, rfl⟩ := List.mem_map.mp hx
  exact ⟨rfl, storingProgress_ge_40 _ _, storingProgress_le_95 _ _⟩

theorem analyzeSeg_pairwise (t : Nat) :
    List.Pairwise (fun a b : Prog => a.progress ≤ b.progress)
      ((analyzeSteps t).map (fun p => Prog.mk .analyzing (analysisProgress p t))) := by
  unfold analyzeSteps
  rw [List.map_map]
  exact List.Pairwise.map _
    (fun a b hab => analysisProgress_mono t (min_le_min (by omega) (le_refl t)))
    (List.pairwise_lt_range _)

theorem storingSeg_pairwise (bs : List Nat) (est : Nat) :
    List.Pairwise (fun a b : Prog => a.progress ≤ b.progress)
      ((cumSums bs).map (fun tc => Prog.mk .storing (storingProgress tc (max est 10)))) :=
  List.Pairwise.map _ (fun a b hab => storingProgress_mono _ hab)
    (cumSumsFrom_pairwise bs 0)

/-- C10: along every successful ingestion run the stage sequence is
forward-only (no later write holds an earlier stage), the progress percentage
is nondecreasing, always within 0–100 and at most 95 on every write before
completion, exactly 100 at `complete`; `complete` occurs only as the final
write; and the record's eviction is scheduled a fixed retention delay after
completion. -/
theorem progress_state_machine (t : Nat) (bs : List Nat) (est : Nat) :
    List.Pairwise (fun a b => stageRank a.stage ≤ stageRank b.stage) (progressTrace t bs est) ∧
    List.Pairwise (fun a b : Prog => a.progress ≤ b.progress) (progressTrace t bs est) ∧
    (∀ e ∈ progressTrace t bs est, e.progress ≤ 100) ∧
    (∀ e ∈ progressTrace t bs est, e.stage ≠ Stage.complete → e.progress ≤ 95) ∧
    (∀ e ∈ progressTrace t bs est, e.stage = Stage.complete → e.progress = 100) ∧
    (∃ pre, progressTrace t bs est = pre ++ [Prog.mk .complete 100] ∧
      ∀ e ∈ pre, e.stage ≠ Stage.complete) ∧
    (ingestionRun t bs est).2 = retentionMs := by
  have hmemA : ∀ x ∈ (analyzeSteps t).map
      (fun p => Prog.mk .analyzing (analysisProgress p t)),
      x.stage = Stage.analyzing ∧ x.progress ≤ 40 := fun x hx => analyzeSeg_mem hx
  have hmemS : ∀ x ∈ (cumSums bs).map
      (fun tc => Prog.mk .storing (storingProgress tc (max est 10))),
      x.stage = Stage.storing ∧ 40 ≤ x.progress ∧ x.progress ≤ 95 :=
    fun x hx => storingSeg_mem hx
  have hcaseT : ∀ e ∈ progressTrace t bs est,
      e = Prog.mk .uploading 0 ∨ e = Prog.mk .analyzing 0 ∨
      (e.stage = Stage.analyzing ∧ e.progress ≤ 40) ∨ e = Prog.mk .chunking 40 ∨
      (e.stage = Stage.storing ∧ 40 ≤ e.progress ∧ e.progress ≤ 95) ∨
      e = Prog.mk .complete 100 := by
    intro e he
    unfold progressTrace at he
    rcases List.mem_append.mp he with he | he
    · rcases List.mem_append.mp he with he | he
      · rcases List.mem_append.mp he with he | he
        · rcases List.mem_append.mp he with he | he
          · rcases List.mem_cons.mp he with rfl | he
            · exact Or.inl rfl
            · rw [List.mem_singleton] at he
              exact Or.inr (Or.inl he)
          · exact Or.inr (Or.inr (Or.inl (hmemA e he)))
        · rw [List.mem_singleton] at he
          exact Or.inr (Or.inr (Or.inr (Or.inl he)))
      · exact Or.inr (Or.inr (Or.inr (Or.inr (Or.inl (hmemS e he)))))
    · rw [List.mem_singleton] at he
      exact Or.inr (Or.inr (Or.inr (Or.inr (Or.inr he))))
  refine ⟨?_, ?_, ?_, ?_, ?_, ?_, rfl⟩
  · -- forward-only stages
    unfold progressTrace
    refine List.pairwise_append.2 ⟨?_, List.pairwise_singleton _ _, ?_⟩
    · refine List.pairwise_append.2 ⟨?_, ?_, ?_⟩
      · refine List.pairwise_append.2 ⟨?_, List.pairwise_singleton _ _, ?_⟩
        · refine List.pairwise_append.2 ⟨?_, ?_, ?_⟩
          · simp [stageRank]
          · apply pairwise_of_mem
            intro a ha b hb
            rw [(hmemA a ha).1, (hmemA b hb).1]
          · intro a ha b hb
            rw [(hmemA b hb).1]
            rcases List.mem_cons.mp ha with rfl | ha
            · simp [stageRank]
            · rw [List.mem_singleton] at ha
              subst ha
              simp [stageRank]
        · intro a ha b hb
          rw [List.mem_singleton] at hb
          subst hb
          rcases List.mem_append.mp ha with ha | ha
          · rcases List.mem_cons.mp ha with rfl | ha
            · simp [stageRank]
            · rw [List.mem_singleton] at ha
              subst ha
              simp [stageRank]
          · rw [(hmemA a ha).1]
            simp [stageRank]
      · apply pairwise_of_mem
        intro a ha b hb
        rw [(hmemS a ha).1, (hmemS b hb).1]
      · intro a ha b hb
        rw [(hmemS b hb).1]
        rcases List.mem_append.mp ha with ha | ha
        · rcases List.mem_append.mp ha with ha | ha
          · rcases List.mem_cons.mp ha with rfl | ha
            · simp [stageRank]
            · rw [List.mem_singleton] at ha
              subst ha
              simp [stageRank]
          · rw [(hmemA a ha).1]
            simp [stageRank]
        · rw [List.mem_singleton] at ha
          subst ha
          simp [stageRank]
    · intro a ha b hb
      rw [List.mem_singleton] at hb
      subst hb
      have : stageRank a.stage ≤ 4 := by
        cases h : a.stage <;> simp [stageRank]
      simpa [stageRank] using this
  · -- nondecreasing progress
    have h40 : ∀ b ∈ ((cumSums bs).map
        (fun tc => Prog.mk .storing (storingProgress tc (max est 10))) ++
          [Prog.mk .complete 100]), 40 ≤ b.progress := by
      intro b hb
      rcases List.mem_append.mp hb with hb | hb
      · exact (hmemS b hb).2.1
      · rw [List.mem_singleton] at hb
        subst hb
        decide
    unfold progressTrace
    refine List.pairwise_append.2 ⟨?_, List.pairwise_singleton _ _, ?_⟩
    · refine List.pairwise_append.2 ⟨?_, ?_, ?_⟩
      · refine List.pairwise_append.2 ⟨?_, List.pairwise_singleton _ _, ?_⟩
        · refine List.pairwise_append.2 ⟨?_, analyzeSeg_pairwise t, ?_⟩
          · simp
          · intro a ha b hb
            rcases List.mem_cons.mp ha with rfl | ha
            · simp
            · rw [List.mem_singleton] at ha
              subst ha
              simp
        · intro a ha b hb
          rw [List.mem_singleton] at hb
          subst hb
          rcases List.mem_append.mp ha with ha | ha
          · rcases List.mem_cons.mp ha with rfl | ha
            · exact Nat.zero_le _
            · rw [List.mem_singleton] at ha
              subst ha
              exact Nat.zero_le _
          · exact (hmemA a ha).2
      · exact storingSeg_pairwise bs est
      · intro a ha b hb
        have hb40 : 40 ≤ b.progress := (hmemS b hb).2.1
        rcases List.mem_append.mp ha with ha | ha
        · rcases List.mem_append.mp ha with ha | ha
          · rcases List.mem_cons.mp ha with rfl | ha
            · exact Nat.zero_le _
            · rw [List.mem_singleton] at ha
              subst ha
              exact Nat.zero_le _
          · have := (hmemA a ha).2
            show a.progress ≤ b.progress
            omega
        · rw [List.mem_singleton] at ha
          subst ha
          exact hb40
    · intro a ha b hb
      rw [List.mem_singleton] at hb
      subst hb
      show a.progress ≤ 100
      rcases hcaseT a (by
        unfold progressTrace
        exact List.mem_append.mpr (Or.inl ha)) with rfl | rfl | h | rfl | h | rfl
      · decide
      · decide
      · obtain ⟨h1, h2⟩ := h
        omega
      · decide
      · obtain ⟨h1, h2, h3⟩ := h
        omega
      · decide
  · -- progress within 0..100
    intro e he
    rcases hcaseT e he with rfl | rfl | h | rfl | h | rfl
    · decide
    · decide
    · obtain ⟨h1, h2⟩ := h
      omega
    · decide
    · obtain ⟨h1, h2, h3⟩ := h
      omega
    · decide
  · -- at most 95 before completion
    intro e he hne
    rcases hcaseT e he with rfl | rfl | h | rfl | h | rfl
    · decide
    · decide
    · obtain ⟨h1, h2⟩ := h
      omega
    · decide
    · obtain ⟨h1, h2, h3⟩ := h
      omega
    · exact absurd rfl hne
  · -- exactly 100 at complete
    intro e he hc
    rcases hcaseT e he with rfl | rfl | h | rfl | h | rfl
    · exact Stage.noConfusion hc
    · exact Stage.noConfusion hc
    · rw [h.1] at hc
      exact Stage.noConfusion hc
    · exact Stage.noConfusion hc
    · rw [h.1] at hc
      exact Stage.noConfusion hc
    · rfl
  · -- complete is the terminal write
    refine ⟨[Prog.mk .uploading 0, Prog.mk .analyzing 0] ++
      (analyzeSteps t).map (fun p => Prog.mk .analyzing (analysisProgress p t)) ++
      [Prog.mk .chunking 40] ++
      (cumSums bs).map (fun tc => Prog.mk .storing (storingProgress tc (max est 10))), ?_, ?_⟩
    · unfold progressTrace
      rfl
    · intro e he
      rcases List.mem_append.mp he with he | he
      · rcases List.mem_append.mp he with he | he
        · rcases List.mem_append.mp he with he | he
          · rcases List.mem_cons.mp he with rfl | he
            · exact fun hc => Stage.noConfusion hc
            · rw [List.mem_singleton] at he
              subst he
              exact fun hc => Stage.noConfusion hc
          · intro hc
            rw [(hmemA e he).1] at hc
            exact Stage.noConfusion hc
        · rw [List.mem_singleton] at he
          subst he
          exact fun hc => Stage.noConfusion hc
      · intro hc
        rw [(hmemS e he).1] at hc
        exact Stage.noConfusion hc

/-- Witness for C10 at a concrete run: 5 pages, three stored batches,
estimate 100. -/
theorem progress_state_machine_witness :
    List.Pairwise (fun a b => stageRank a.stage ≤ stageRank b.stage)
      (progressTrace 5 [50, 50, 20] 100) ∧
    (∀ e ∈ progressTrace 5 [50, 50, 20] 100, e.progress ≤ 100) :=
  ⟨(progress_state_machine 5 [50, 50, 20] 100).1,
    (progress_state_machine 5 [50, 50, 20] 100).2.2.1⟩

end StudyOwl
